import Mathlib

/-!
# Verification of `basic_deno_ts_module_loader` (src/src/lib.rs)

A shallow embedding of the `TypescriptModuleLoader` from `src/src/lib.rs`:
the `resolve` method (which delegates to `deno_core::resolve_import`) and
the `load` method (origin dispatch over filesystem / http(s), media-type
classification, JSON-attribute guard, transpile gate, module-record
construction).

External collaborators (the filesystem, the HTTP client `reqwest`, and the
`deno_ast` parse+transpile pipeline) are passed in as an explicit
environment `Env` of response functions, so every theorem quantifies over
their behaviour.  The side effects the loader performs are recorded in an
event trace (`Event`), which lets us state ordering properties (what is
performed before what) of a single `load` call.
-/

namespace TsLoader

/-- `deno_ast::MediaType` (the variants distinguished by the loader's two
match tables, plus the remaining variants that fall into its `_` arm). -/
inductive MediaType where
  | JavaScript
  | Jsx
  | Mjs
  | Cjs
  | TypeScript
  | Mts
  | Cts
  | Dts
  | Dmts
  | Dcts
  | Tsx
  | Json
  | Wasm
  | SourceMap
  | Unknown
  deriving DecidableEq, Repr

/-- `deno_core::ModuleType` (the two variants this loader produces). -/
inductive ModuleType where
  | JavaScript
  | Json
  deriving DecidableEq, Repr

/-- `deno_core::RequestedModuleType`: the module type the import statement
requested (`None` = plain import, `Json` = `with { type: "json" }`). -/
inductive RequestedModuleType where
  | None
  | Json
  | Other (s : String)
  deriving DecidableEq, Repr

/-- Split a character list at every occurrence of `c` (the separator is
dropped; `n` separators yield `n + 1` pieces, like `String::split`). -/
def splitChar (c : Char) : List Char → List (List Char)
  | [] => [[]]
  | a :: rest =>
    match splitChar c rest with
    | [] => if a == c then [[], []] else [[a]]
    | h :: t => if a == c then [] :: h :: t else (a :: h) :: t

/-- Does `s` start with `pre`? (`str::starts_with`.) -/
def listStartsWith : List Char → List Char → Bool
  | _, [] => true
  | [], _ :: _ => false
  | a :: s, b :: p => a == b && listStartsWith s p

/-- `listStartsWith` lifted to `String`. -/
def strStartsWith (s pre : String) : Bool := listStartsWith s.data pre.data

/-- Does `s` end with `suf`? (`str::ends_with`.) -/
def strEndsWith (s suf : String) : Bool :=
  listStartsWith s.data.reverse suf.data.reverse

/-- ASCII-whitespace trim of both ends (`str::trim`). -/
def strTrim (s : String) : String :=
  String.mk (((s.data.dropWhile Char.isWhitespace).reverse.dropWhile Char.isWhitespace).reverse)

/-- Lower-casing (`str::to_lowercase`, on the ASCII range this code meets). -/
def strToLower (s : String) : String := String.mk (s.data.map Char.toLower)

/-- Join character lists with a separator character (inverse of `splitChar`). -/
def joinSep (c : Char) : List (List Char) → List Char
  | [] => []
  | [x] => x
  | x :: xs => x ++ (c :: joinSep c xs)

/-- The extension of a path, as `std::path::Path::extension` computes it on
the final component: the text after the last `.`, provided the component
does not consist of a single leading-dot name. -/
def extOf (path : String) : Option String :=
  let fileName := (splitChar '/' path.data).getLastD []
  match splitChar '.' fileName with
  | [] => none
  | [_] => none
  | first :: rest =>
    if first = [] ∧ rest.length = 1 then none else rest.getLast?.map String.mk

/-- `deno_ast::MediaType::from_path`: classification of a local path purely
by its extension (with the `.d.ts` / `.d.mts` / `.d.cts` declaration-file
refinement). -/
def MediaType.fromPath (path : String) : MediaType :=
  match extOf path with
  | none => .Unknown
  | some e =>
    if e = "ts" then (if strEndsWith path ".d.ts" then .Dts else .TypeScript)
    else if e = "mts" then (if strEndsWith path ".d.mts" then .Dmts else .Mts)
    else if e = "cts" then (if strEndsWith path ".d.cts" then .Dcts else .Cts)
    else if e = "tsx" then .Tsx
    else if e = "js" then .JavaScript
    else if e = "jsx" then .Jsx
    else if e = "mjs" then .Mjs
    else if e = "cjs" then .Cjs
    else if e = "json" then .Json
    else if e = "wasm" then .Wasm
    else if e = "map" then .SourceMap
    else .Unknown

/-- A resolved module specifier (`deno_core::ModuleSpecifier`, i.e. a
`url::Url`): scheme, host, and path of an absolute URL. -/
structure ModuleSpecifier where
  scheme : String
  host : String
  path : String
  deriving DecidableEq, Repr

/-- `url::Url::to_string`, for the hierarchical URLs this model builds. -/
def ModuleSpecifier.urlStr (m : ModuleSpecifier) : String :=
  m.scheme ++ "://" ++ m.host ++ m.path

/-- `url::Url::to_file_path`: succeeds exactly for `file:` URLs with an
empty or `localhost` host and an absolute path. -/
def ModuleSpecifier.toFilePath (m : ModuleSpecifier) : Option String :=
  if m.scheme = "file" ∧ (m.host = "" ∨ m.host = "localhost") ∧ strStartsWith m.path "/" then
    some m.path
  else
    none

/-- The MIME essence of a `content-type` header value: the part before the
first `;`, trimmed and lower-cased (as `deno_ast` computes it). -/
def ctEssence (ct : String) : String :=
  match splitChar ';' ct.data with
  | [] => ""
  | c :: _ => strToLower (strTrim (String.mk c))

/-- The content-type essences `deno_ast::MediaType::from_content_type`
recognizes as a TypeScript family. -/
def tsContentTypes : List String :=
  ["application/typescript", "text/typescript", "video/vnd.dlna.mpeg-tts",
   "video/mp2t", "application/x-typescript"]

/-- The content-type essences `deno_ast::MediaType::from_content_type`
recognizes as a JavaScript family. -/
def jsContentTypes : List String :=
  ["application/javascript", "text/javascript", "application/ecmascript",
   "text/ecmascript", "application/x-javascript", "application/node"]

/-- `deno_ast`'s `map_js_like_extension`: refine a JS/TS-family
content-type by the specifier's own extension. -/
def mapJsLikeExtension (m : ModuleSpecifier) (default : MediaType) : MediaType :=
  match extOf m.path with
  | none => default
  | some e =>
    if e = "jsx" then .Jsx
    else if e = "tsx" then .Tsx
    else if e = "mjs" then .Mjs
    else if e = "cjs" then .Cjs
    else if e = "mts" then (if strEndsWith m.path ".d.mts" then .Dmts else .Mts)
    else if e = "cts" then (if strEndsWith m.path ".d.cts" then .Dcts else .Cts)
    else if e = "ts" then (if strEndsWith m.path ".d.ts" then .Dts else default)
    else default

/-- `deno_ast::MediaType::from_content_type`: classification of a network
response from its `content-type` header, with the specifier's extension as
a tie-break for JS/TS families and as a fallback for
`text/plain` / `application/octet-stream`. -/
def MediaType.fromContentType (m : ModuleSpecifier) (ct : String) : MediaType :=
  let e := ctEssence ct
  if e ∈ tsContentTypes then mapJsLikeExtension m .TypeScript
  else if e ∈ jsContentTypes then mapJsLikeExtension m .JavaScript
  else if e = "text/jsx" then .Jsx
  else if e = "text/tsx" then .Tsx
  else if e = "application/json" ∨ e = "text/json" then .Json
  else if e = "application/wasm" then .Wasm
  else if (e = "text/plain" ∨ e = "application/octet-stream") ∧ m.scheme ≠ "data" then
    MediaType.fromPath m.path
  else .Unknown

/-- The error values `load` can return (`bail!` / `generic_error` /
propagated collaborator failures in `src/src/lib.rs`), each carrying the
same context the corresponding Rust message carries. -/
inductive LoadErr where
  | unknownExtension (ext : Option String)
  | unknownContentType (ct : String)
  | jsonAttribute
  | fsError (e : String)
  | httpError (e : String)
  | fetchFailed (specifier : String)
  | noContentType
  | bodyError (e : String)
  | unsupportedSpecifier (specifier : String)
  | transpileError (e : String)
  deriving DecidableEq, Repr

/-- `deno_core::ModuleSource`: the record handed back to the host. -/
structure ModuleSource where
  moduleType : ModuleType
  code : String
  specifier : String
  deriving DecidableEq, Repr

/-- A network response as the loader observes it: success flag of the
status, the `content-type` header (after `to_str().ok()`, so `none` covers
an absent header), and the body text read. -/
structure HttpResponse where
  statusSuccess : Bool
  contentType : Option String
  body : Except String String
  deriving Repr

/-- The loader's collaborators: filesystem reads, HTTP GETs, and the
`deno_ast` parse+transpile pipeline (specifier, media type, source text). -/
structure Env where
  fs : String → Except String String
  http : String → Except String HttpResponse
  transpile : String → MediaType → String → Except String String

/-- The observable side effects of one `load` call, in order. -/
inductive Event where
  | guardCheck
  | fsRead (path : String)
  | httpGet (url : String)
  | httpBodyRead (url : String)
  | transpileRun
  deriving DecidableEq, Repr

/-- The loader's first match table (`src/src/lib.rs` lines 59–73, local
branch): media type to `(module_type, should_transpile)`; `none` is the
`_ => bail!("Unknown extension ...")` arm. -/
def classifyLocal : MediaType → Option (ModuleType × Bool)
  | .JavaScript | .Mjs | .Cjs => some (.JavaScript, false)
  | .Jsx => some (.JavaScript, true)
  | .TypeScript | .Mts | .Cts | .Dts | .Dmts | .Dcts | .Tsx => some (.JavaScript, true)
  | .Json => some (.Json, false)
  | _ => none

/-- The loader's second match table (`src/src/lib.rs` lines 106–120,
network branch): textually identical to the first; `none` is the
`_ => bail!("Unknown content-type ...")` arm. -/
def classifyRemote : MediaType → Option (ModuleType × Bool)
  | .JavaScript | .Mjs | .Cjs => some (.JavaScript, false)
  | .Jsx => some (.JavaScript, true)
  | .TypeScript | .Mts | .Cts | .Dts | .Dmts | .Dcts | .Tsx => some (.JavaScript, true)
  | .Json => some (.Json, false)
  | _ => none

/-- The transpile gate (`src/src/lib.rs` lines 137–150): parse+transpile
when `should_transpile`, otherwise pass the fetched text through
unchanged; then build the `ModuleSource`. Returns the result together
with the events this stage performs. -/
def transpileGate (env : Env) (ms : ModuleSpecifier) (mt : ModuleType)
    (media : MediaType) (shouldTranspile : Bool) (code : String) :
    Except LoadErr ModuleSource × List Event :=
  if shouldTranspile then
    match env.transpile ms.urlStr media code with
    | .error e => (.error (.transpileError e), [.transpileRun])
    | .ok out => (.ok ⟨mt, out, ms.urlStr⟩, [.transpileRun])
  else
    (.ok ⟨mt, code, ms.urlStr⟩, [])

/-- The local (filesystem) branch of `load` (`src/src/lib.rs` lines
56–87): classify by path, run the JSON-attribute guard, read the file,
then the transpile gate. -/
def loadLocal (env : Env) (ms : ModuleSpecifier) (path : String)
    (req : RequestedModuleType) : Except LoadErr ModuleSource × List Event :=
  let media := MediaType.fromPath path
  match classifyLocal media with
  | none => (.error (.unknownExtension (extOf path)), [])
  | some (mt, shouldTranspile) =>
    if mt = ModuleType.Json ∧ req ≠ RequestedModuleType.Json then
      (.error .jsonAttribute, [.guardCheck])
    else
      match env.fs path with
      | .error e => (.error (.fsError e), [.guardCheck, .fsRead path])
      | .ok code =>
        let g := transpileGate env ms mt media shouldTranspile code
        (g.1, [.guardCheck, .fsRead path] ++ g.2)

/-- The network branch of `load` (`src/src/lib.rs` lines 89–133): GET,
check status, require a `content-type` header, classify, run the
JSON-attribute guard, read the body, then the transpile gate. -/
def loadRemote (env : Env) (ms : ModuleSpecifier)
    (req : RequestedModuleType) : Except LoadErr ModuleSource × List Event :=
  match env.http ms.urlStr with
  | .error e => (.error (.httpError e), [.httpGet ms.urlStr])
  | .ok res =>
    if ¬ res.statusSuccess then
      (.error (.fetchFailed ms.urlStr), [.httpGet ms.urlStr])
    else
      match res.contentType with
      | none => (.error .noContentType, [.httpGet ms.urlStr])
      | some ct =>
        let media := MediaType.fromContentType ms ct
        match classifyRemote media with
        | none => (.error (.unknownContentType ct), [.httpGet ms.urlStr])
        | some (mt, shouldTranspile) =>
          if mt = ModuleType.Json ∧ req ≠ RequestedModuleType.Json then
            (.error .jsonAttribute, [.httpGet ms.urlStr, .guardCheck])
          else
            match res.body with
            | .error e =>
              (.error (.bodyError e),
               [.httpGet ms.urlStr, .guardCheck, .httpBodyRead ms.urlStr])
            | .ok code =>
              let g := transpileGate env ms mt media shouldTranspile code
              (g.1, [.httpGet ms.urlStr, .guardCheck, .httpBodyRead ms.urlStr] ++ g.2)

/-- `TypescriptModuleLoader::load` (`src/src/lib.rs` lines 43–160):
dispatch on whether the specifier denotes a file path, else on the
scheme; `maybeReferrer` and `isDynImport` are received and ignored, as
the `_`-prefixed parameters are in the source. -/
def load (env : Env) (ms : ModuleSpecifier) (_maybeReferrer : Option ModuleSpecifier)
    (_isDynImport : Bool) (req : RequestedModuleType) :
    Except LoadErr ModuleSource × List Event :=
  match ms.toFilePath with
  | some path => loadLocal env ms path req
  | none =>
    if ms.scheme = "http" ∨ ms.scheme = "https" then loadRemote env ms req
    else (.error (.unsupportedSpecifier ms.urlStr), [])

/-- `deno_core::ResolutionKind` (the third parameter of `resolve`, which
the source receives as `_kind` and ignores). -/
inductive ResolutionKind where
  | MainModule
  | Import
  | DynamicImport
  deriving DecidableEq, Repr

/-- `deno_core::ModuleResolutionError`, the error type of `resolve_import`. -/
inductive ResolveErr where
  | importPrefixMissing (specifier : String)
  | invalidBaseUrl (referrer : String)
  | invalidUrl (specifier : String)
  deriving DecidableEq, Repr

/-- Is `s` of the shape `ALPHA *( ALPHA / DIGIT / "+" / "-" / "." )`, i.e. a
syntactically valid URI scheme? -/
def validScheme (s : String) : Bool :=
  match s.toList with
  | [] => false
  | c :: cs => c.isAlpha && cs.all (fun d => d.isAlphanum || d = '+' || d = '-' || d = '.')

/-- Split `s` at its first `:` into a valid scheme and the remainder, when
possible. -/
def schemeSplit (s : String) : Option (String × String) :=
  match splitChar ':' s.data with
  | [] => none
  | [_] => none
  | scheme :: rest =>
    if validScheme (String.mk scheme) then
      some (String.mk scheme, String.mk (joinSep ':' rest))
    else none

/-- Normalize the segments of a URL path: drop `.` segments and let `..`
segments pop the previous one (stopping at the root). -/
def normSegs : List (List Char) → List (List Char) → List (List Char)
  | acc, [] => acc.reverse
  | acc, s :: rest =>
    if s = ['.'] then normSegs acc rest
    else if s = ['.', '.'] then normSegs (acc.drop 1) rest
    else normSegs (s :: acc) rest

/-- Normalize an absolute URL path (one starting with `/`). -/
def normalizePath (p : String) : String :=
  match splitChar '/' p.data with
  | [] => "/"
  | _ :: segs => String.mk ('/' :: joinSep '/' (normSegs [] segs))

/-- Modelled from the spec: parsing an absolute URI (the repository's
`resolve` delegates to `deno_core::resolve_import`, whose code — and the
`url` crate's WHATWG parser under it — is not part of this repository).
Per the spec's standard URI semantics: a string with a valid scheme
followed by `://host/path` parses hierarchically with the scheme
lower-cased and the path normalized; a scheme followed by anything else
parses as a scheme-plus-opaque-path URL; a string with no scheme does not
parse as absolute. -/
def parseUrl (s : String) : Option ModuleSpecifier :=
  match schemeSplit s with
  | none => none
  | some (scheme, rest) =>
    if strStartsWith rest "//" then
      let hp := rest.data.drop 2
      let host := hp.takeWhile (fun c => c != '/')
      let rawPath := hp.dropWhile (fun c => c != '/')
      some ⟨strToLower scheme, String.mk host,
            if rawPath = [] then "/" else normalizePath (String.mk rawPath)⟩
    else
      some ⟨strToLower scheme, "", rest⟩

/-- The directory part of a URL path: everything up to and including the
last `/`. -/
def dirOf (p : String) : String :=
  String.mk (joinSep '/' ((splitChar '/' p.data).dropLast) ++ ['/'])

/-- Modelled from the spec: standard URI-join of a relative reference
against an absolute base — a root-relative reference replaces the base's
path, otherwise the reference is appended to the base path's directory,
and the result is normalized. -/
def joinUrl (base : ModuleSpecifier) (rel : String) : ModuleSpecifier :=
  if strStartsWith rel "/" then
    { base with path := normalizePath rel }
  else
    { base with path := normalizePath (dirOf base.path ++ rel) }

/-- Modelled from the spec: `deno_core::resolve_import` (not part of this
repository's sources). An absolute specifier is used as-is; a specifier
that is not absolute and does not start with `/`, `./` or `../` is
rejected; otherwise the specifier is joined against the referrer parsed
as an absolute URI. -/
def resolveImport (specifier referrer : String) : Except ResolveErr ModuleSpecifier :=
  match parseUrl specifier with
  | some u => .ok u
  | none =>
    if strStartsWith specifier "/" ∨ strStartsWith specifier "./" ∨ strStartsWith specifier "../" then
      match parseUrl referrer with
      | some base => .ok (joinUrl base specifier)
      | none => .error (.invalidBaseUrl referrer)
    else
      .error (.importPrefixMissing specifier)

/-- `TypescriptModuleLoader::resolve` (`src/src/lib.rs` lines 34–41):
delegate to `resolve_import`, ignoring the resolution kind (`_kind`). -/
def resolve (specifier referrer : String) (_kind : ResolutionKind) :
    Except ResolveErr ModuleSpecifier :=
  resolveImport specifier referrer

/-- Does the event fetch module content (a file read or an HTTP body
read)? -/
def Event.isContentFetch : Event → Bool
  | .fsRead _ => true
  | .httpBodyRead _ => true
  | _ => false

/-- Is the event the issuing of an HTTP GET request? -/
def Event.isHttpGet : Event → Bool
  | .httpGet _ => true
  | _ => false

/-- Whether a media kind goes through the transpile step, read off the
second component of the loader's classification table. -/
def requiresTranspile (m : MediaType) : Bool :=
  match classifyLocal m with
  | some (_, b) => b
  | none => false

/-- The extensions the loader's classification table accepts (every other
extension reaches the `bail!("Unknown extension ...")` arm). -/
def knownExtensions : List String :=
  ["js", "jsx", "mjs", "cjs", "ts", "mts", "cts", "tsx", "json"]

/-- The content-type essences for which classification does not yield
`MediaType.Unknown` (every other essence reaches the
`bail!("Unknown content-type ...")` arm). -/
def knownContentTypes : List String :=
  tsContentTypes ++ jsContentTypes ++
    ["text/jsx", "text/tsx", "application/json", "text/json",
     "application/wasm", "text/plain", "application/octet-stream"]

/-- A collaborator environment in which every collaborator fails: the
filesystem has no files, the network is unreachable, the transpiler
rejects everything. -/
def envEmpty : Env :=
  ⟨fun _ => .error "no such file", fun _ => .error "network unreachable",
   fun _ _ _ => .error "parse error"⟩

/-- A collaborator environment in which every file read yields `src`,
every transpile yields `out`, and the network is unreachable. -/
def envFs (src out : String) : Env :=
  ⟨fun _ => .ok src, fun _ => .error "network unreachable", fun _ _ _ => .ok out⟩

/-- A collaborator environment in which every GET yields the response
`res`, every transpile yields `out`, and the filesystem is empty. -/
def envHttp (res : HttpResponse) (out : String) : Env :=
  ⟨fun _ => .error "no such file", fun _ => .ok res, fun _ _ _ => .ok out⟩

/-! ## Helper lemmas -/

/-- The two match tables of `load` (local branch, lines 59–73; network
branch, lines 106–120) are the same function of the media type. -/
theorem classify_tables_agree (m : MediaType) : classifyLocal m = classifyRemote m := by
  cases m <;> rfl

theorem transpileGate_false (env : Env) (ms : ModuleSpecifier) (mt : ModuleType)
    (media : MediaType) (code : String) :
    transpileGate env ms mt media false code = (.ok ⟨mt, code, ms.urlStr⟩, []) := rfl

theorem transpileGate_true_ok (env : Env) (ms : ModuleSpecifier) (mt : ModuleType)
    (media : MediaType) (code out : String)
    (htr : env.transpile ms.urlStr media code = .ok out) :
    transpileGate env ms mt media true code = (.ok ⟨mt, out, ms.urlStr⟩, [.transpileRun]) := by
  simp [transpileGate, htr]

theorem transpileGate_true_error (env : Env) (ms : ModuleSpecifier) (mt : ModuleType)
    (media : MediaType) (code e : String)
    (htr : env.transpile ms.urlStr media code = .error e) :
    transpileGate env ms mt media true code
      = (.error (.transpileError e), [.transpileRun]) := by
  simp [transpileGate, htr]

/-- A successful transpile-gate result carries the module type it was given. -/
theorem transpileGate_fst_ok_moduleType (env : Env) (ms : ModuleSpecifier)
    (mt : ModuleType) (media : MediaType) (st : Bool) (code : String)
    (r : ModuleSource) (h : (transpileGate env ms mt media st code).1 = .ok r) :
    r.moduleType = mt := by
  cases st
  · rw [transpileGate_false] at h
    simp only [Except.ok.injEq] at h
    subst h
    rfl
  · cases htr : env.transpile ms.urlStr media code with
    | error e => rw [transpileGate_true_error env ms mt media code e htr] at h; simp at h
    | ok out =>
      rw [transpileGate_true_ok env ms mt media code out htr] at h
      simp only [Except.ok.injEq] at h
      subst h
      rfl

theorem loadLocal_classify_none (env : Env) (ms : ModuleSpecifier) (p : String)
    (req : RequestedModuleType)
    (hcl : classifyLocal (MediaType.fromPath p) = none) :
    loadLocal env ms p req = (.error (.unknownExtension (extOf p)), []) := by
  simp [loadLocal, hcl]

theorem loadLocal_guard_stop (env : Env) (ms : ModuleSpecifier) (p : String)
    (req : RequestedModuleType) (mt : ModuleType) (st : Bool)
    (hcl : classifyLocal (MediaType.fromPath p) = some (mt, st))
    (hmt : mt = ModuleType.Json) (hreq : req ≠ RequestedModuleType.Json) :
    loadLocal env ms p req = (.error .jsonAttribute, [.guardCheck]) := by
  simp [loadLocal, hcl, hmt, hreq]

theorem loadLocal_fs_error (env : Env) (ms : ModuleSpecifier) (p : String)
    (req : RequestedModuleType) (mt : ModuleType) (st : Bool) (e : String)
    (hcl : classifyLocal (MediaType.fromPath p) = some (mt, st))
    (hg : ¬(mt = ModuleType.Json ∧ req ≠ RequestedModuleType.Json))
    (hfs : env.fs p = .error e) :
    loadLocal env ms p req = (.error (.fsError e), [.guardCheck, .fsRead p]) := by
  simp [loadLocal, hcl, hg, hfs]

theorem loadLocal_fs_ok (env : Env) (ms : ModuleSpecifier) (p : String)
    (req : RequestedModuleType) (mt : ModuleType) (st : Bool) (code : String)
    (hcl : classifyLocal (MediaType.fromPath p) = some (mt, st))
    (hg : ¬(mt = ModuleType.Json ∧ req ≠ RequestedModuleType.Json))
    (hfs : env.fs p = .ok code) :
    loadLocal env ms p req =
      ((transpileGate env ms mt (MediaType.fromPath p) st code).1,
       [.guardCheck, .fsRead p] ++ (transpileGate env ms mt (MediaType.fromPath p) st code).2) := by
  simp [loadLocal, hcl, hg, hfs]

theorem loadRemote_http_error (env : Env) (ms : ModuleSpecifier)
    (req : RequestedModuleType) (e : String) (hh : env.http ms.urlStr = .error e) :
    loadRemote env ms req = (.error (.httpError e), [.httpGet ms.urlStr]) := by
  simp [loadRemote, hh]

theorem loadRemote_bad_status (env : Env) (ms : ModuleSpecifier)
    (req : RequestedModuleType) (res : HttpResponse)
    (hh : env.http ms.urlStr = .ok res) (hst : res.statusSuccess = false) :
    loadRemote env ms req = (.error (.fetchFailed ms.urlStr), [.httpGet ms.urlStr]) := by
  simp [loadRemote, hh, hst]

theorem loadRemote_no_ct (env : Env) (ms : ModuleSpecifier)
    (req : RequestedModuleType) (res : HttpResponse)
    (hh : env.http ms.urlStr = .ok res) (hst : res.statusSuccess = true)
    (hct : res.contentType = none) :
    loadRemote env ms req = (.error .noContentType, [.httpGet ms.urlStr]) := by
  simp [loadRemote, hh, hst, hct]

theorem loadRemote_classify_none (env : Env) (ms : ModuleSpecifier)
    (req : RequestedModuleType) (res : HttpResponse) (ct : String)
    (hh : env.http ms.urlStr = .ok res) (hst : res.statusSuccess = true)
    (hct : res.contentType = some ct)
    (hcl : classifyRemote (MediaType.fromContentType ms ct) = none) :
    loadRemote env ms req = (.error (.unknownContentType ct), [.httpGet ms.urlStr]) := by
  simp [loadRemote, hh, hst, hct, hcl]

theorem loadRemote_guard_stop (env : Env) (ms : ModuleSpecifier)
    (req : RequestedModuleType) (res : HttpResponse) (ct : String)
    (mt : ModuleType) (st : Bool)
    (hh : env.http ms.urlStr = .ok res) (hst : res.statusSuccess = true)
    (hct : res.contentType = some ct)
    (hcl : classifyRemote (MediaType.fromContentType ms ct) = some (mt, st))
    (hmt : mt = ModuleType.Json) (hreq : req ≠ RequestedModuleType.Json) :
    loadRemote env ms req
      = (.error .jsonAttribute, [.httpGet ms.urlStr, .guardCheck]) := by
  simp [loadRemote, hh, hst, hct, hcl, hmt, hreq]

theorem loadRemote_body_error (env : Env) (ms : ModuleSpecifier)
    (req : RequestedModuleType) (res : HttpResponse) (ct : String)
    (mt : ModuleType) (st : Bool) (e : String)
    (hh : env.http ms.urlStr = .ok res) (hst : res.statusSuccess = true)
    (hct : res.contentType = some ct)
    (hcl : classifyRemote (MediaType.fromContentType ms ct) = some (mt, st))
    (hg : ¬(mt = ModuleType.Json ∧ req ≠ RequestedModuleType.Json))
    (hb : res.body = .error e) :
    loadRemote env ms req
      = (.error (.bodyError e),
         [.httpGet ms.urlStr, .guardCheck, .httpBodyRead ms.urlStr]) := by
  simp [loadRemote, hh, hst, hct, hcl, hg, hb]

theorem loadRemote_body_ok (env : Env) (ms : ModuleSpecifier)
    (req : RequestedModuleType) (res : HttpResponse) (ct : String)
    (mt : ModuleType) (st : Bool) (code : String)
    (hh : env.http ms.urlStr = .ok res) (hst : res.statusSuccess = true)
    (hct : res.contentType = some ct)
    (hcl : classifyRemote (MediaType.fromContentType ms ct) = some (mt, st))
    (hg : ¬(mt = ModuleType.Json ∧ req ≠ RequestedModuleType.Json))
    (hb : res.body = .ok code) :
    loadRemote env ms req =
      ((transpileGate env ms mt (MediaType.fromContentType ms ct) st code).1,
       [.httpGet ms.urlStr, .guardCheck, .httpBodyRead ms.urlStr]
         ++ (transpileGate env ms mt (MediaType.fromContentType ms ct) st code).2) := by
  simp [loadRemote, hh, hst, hct, hcl, hg, hb]

theorem load_local_eq (env : Env) (ms : ModuleSpecifier) (mr : Option ModuleSpecifier)
    (d : Bool) (req : RequestedModuleType) (p : String) (hfp : ms.toFilePath = some p) :
    load env ms mr d req = loadLocal env ms p req := by
  simp [load, hfp]

theorem load_remote_eq (env : Env) (ms : ModuleSpecifier) (mr : Option ModuleSpecifier)
    (d : Bool) (req : RequestedModuleType) (hfp : ms.toFilePath = none)
    (hs : ms.scheme = "http" ∨ ms.scheme = "https") :
    load env ms mr d req = loadRemote env ms req := by
  unfold load
  rw [hfp]
  exact if_pos hs

/-- Everything a successful local load entails: a classified media type, a
passed guard, a successful read, and a successful transpile gate. -/
theorem loadLocal_fst_ok_inv (env : Env) (ms : ModuleSpecifier) (p : String)
    (req : RequestedModuleType) (r : ModuleSource)
    (h : (loadLocal env ms p req).1 = .ok r) :
    ∃ mt st code, classifyLocal (MediaType.fromPath p) = some (mt, st) ∧
      ¬(mt = ModuleType.Json ∧ req ≠ RequestedModuleType.Json) ∧
      env.fs p = .ok code ∧
      (transpileGate env ms mt (MediaType.fromPath p) st code).1 = .ok r := by
  cases hcl : classifyLocal (MediaType.fromPath p) with
  | none => rw [loadLocal_classify_none env ms p req hcl] at h; simp at h
  | some ts =>
    obtain ⟨mt, st⟩ := ts
    by_cases hg : mt = ModuleType.Json ∧ req ≠ RequestedModuleType.Json
    · rw [loadLocal_guard_stop env ms p req mt st hcl hg.1 hg.2] at h; simp at h
    · cases hfs : env.fs p with
      | error e => rw [loadLocal_fs_error env ms p req mt st e hcl hg hfs] at h; simp at h
      | ok code =>
        rw [loadLocal_fs_ok env ms p req mt st code hcl hg hfs] at h
        exact ⟨mt, st, code, rfl, hg, rfl, h⟩

/-- Everything a successful remote load entails: a successful GET with a
successful status, a present `content-type` header, a classified media
type, a passed guard, a read body, and a successful transpile gate. -/
theorem loadRemote_fst_ok_inv (env : Env) (ms : ModuleSpecifier)
    (req : RequestedModuleType) (r : ModuleSource)
    (h : (loadRemote env ms req).1 = .ok r) :
    ∃ res ct mt st code, env.http ms.urlStr = .ok res ∧ res.statusSuccess = true ∧
      res.contentType = some ct ∧
      classifyRemote (MediaType.fromContentType ms ct) = some (mt, st) ∧
      ¬(mt = ModuleType.Json ∧ req ≠ RequestedModuleType.Json) ∧
      res.body = .ok code ∧
      (transpileGate env ms mt (MediaType.fromContentType ms ct) st code).1 = .ok r := by
  cases hh : env.http ms.urlStr with
  | error e => rw [loadRemote_http_error env ms req e hh] at h; simp at h
  | ok res =>
    cases hst : res.statusSuccess with
    | false => rw [loadRemote_bad_status env ms req res hh hst] at h; simp at h
    | true =>
      cases hct : res.contentType with
      | none => rw [loadRemote_no_ct env ms req res hh hst hct] at h; simp at h
      | some ct =>
        cases hcl : classifyRemote (MediaType.fromContentType ms ct) with
        | none => rw [loadRemote_classify_none env ms req res ct hh hst hct hcl] at h; simp at h
        | some ts =>
          obtain ⟨mt, st⟩ := ts
          by_cases hg : mt = ModuleType.Json ∧ req ≠ RequestedModuleType.Json
          · rw [loadRemote_guard_stop env ms req res ct mt st hh hst hct hcl hg.1 hg.2] at h
            simp at h
          · cases hb : res.body with
            | error e =>
              rw [loadRemote_body_error env ms req res ct mt st e hh hst hct hcl hg hb] at h
              simp at h
            | ok code =>
              rw [loadRemote_body_ok env ms req res ct mt st code hh hst hct hcl hg hb] at h
              exact ⟨res, ct, mt, st, code, rfl, hst, hct, hcl, hg, hb, h⟩

/-- The non-file, non-http(s) branch of `load` in one equation. -/
theorem load_other_eq (env : Env) (ms : ModuleSpecifier) (mr : Option ModuleSpecifier)
    (d : Bool) (req : RequestedModuleType) (hfp : ms.toFilePath = none)
    (hs : ¬(ms.scheme = "http" ∨ ms.scheme = "https")) :
    load env ms mr d req = (.error (.unsupportedSpecifier ms.urlStr), []) := by
  unfold load
  rw [hfp]
  exact if_neg hs

/-- A successful transpiling gate returns exactly the transpiler's output. -/
theorem transpileGate_fst_ok_code_true (env : Env) (ms : ModuleSpecifier)
    (mt : ModuleType) (media : MediaType) (code : String) (r : ModuleSource)
    (h : (transpileGate env ms mt media true code).1 = .ok r) :
    env.transpile ms.urlStr media code = .ok r.code := by
  cases htr : env.transpile ms.urlStr media code with
  | error e => rw [transpileGate_true_error env ms mt media code e htr] at h; simp at h
  | ok out =>
    rw [transpileGate_true_ok env ms mt media code out htr] at h
    simp only [Except.ok.injEq] at h
    subst h
    rfl

/-- A non-transpiling gate returns exactly the fetched text. -/
theorem transpileGate_fst_ok_code_false (env : Env) (ms : ModuleSpecifier)
    (mt : ModuleType) (media : MediaType) (code : String) (r : ModuleSource)
    (h : (transpileGate env ms mt media false code).1 = .ok r) :
    r.code = code := by
  rw [transpileGate_false] at h
  simp only [Except.ok.injEq] at h
  subst h
  rfl

/-! ## Claims -/

/-- C1: a `ModuleRecord` with module type JSON is only produced when the
requested module type is JSON; and JSON-classified content with any other
requested type fails with the JSON-attribute error before any record is
constructed, on both the filesystem and the network origin. -/
theorem json_module_guard (env : Env) (ms : ModuleSpecifier)
    (mr : Option ModuleSpecifier) (d : Bool) (req : RequestedModuleType) :
    (∀ r tr, load env ms mr d req = (.ok r, tr) → r.moduleType = ModuleType.Json →
        req = RequestedModuleType.Json)
  ∧ (∀ p, ms.toFilePath = some p → MediaType.fromPath p = MediaType.Json →
        req ≠ RequestedModuleType.Json →
        load env ms mr d req = (.error .jsonAttribute, [.guardCheck]))
  ∧ (∀ res ct, ms.toFilePath = none → (ms.scheme = "http" ∨ ms.scheme = "https") →
        env.http ms.urlStr = .ok res → res.statusSuccess = true →
        res.contentType = some ct →
        MediaType.fromContentType ms ct = MediaType.Json →
        req ≠ RequestedModuleType.Json →
        load env ms mr d req
          = (.error .jsonAttribute, [.httpGet ms.urlStr, .guardCheck])) := by
  refine ⟨?_, ?_, ?_⟩
  · intro r tr h hj
    cases hfp : ms.toFilePath with
    | some p =>
      rw [load_local_eq env ms mr d req p hfp] at h
      have h1 : (loadLocal env ms p req).1 = .ok r := by rw [h]
      obtain ⟨mt, st, code, hcl, hg, hfs, htg⟩ := loadLocal_fst_ok_inv env ms p req r h1
      have hmt := transpileGate_fst_ok_moduleType env ms mt (MediaType.fromPath p) st code r htg
      rw [hmt] at hj
      by_contra hne
      exact hg ⟨hj, hne⟩
    | none =>
      by_cases hs : ms.scheme = "http" ∨ ms.scheme = "https"
      · rw [load_remote_eq env ms mr d req hfp hs] at h
        have h1 : (loadRemote env ms req).1 = .ok r := by rw [h]
        obtain ⟨res, ct, mt, st, code, hh, hst, hct, hcl, hg, hb, htg⟩ :=
          loadRemote_fst_ok_inv env ms req r h1
        have hmt := transpileGate_fst_ok_moduleType env ms mt
          (MediaType.fromContentType ms ct) st code r htg
        rw [hmt] at hj
        by_contra hne
        exact hg ⟨hj, hne⟩
      · rw [load_other_eq env ms mr d req hfp hs] at h
        simp at h
  · intro p hfp hmedia hreq
    rw [load_local_eq env ms mr d req p hfp]
    exact loadLocal_guard_stop env ms p req ModuleType.Json false
      (by rw [hmedia]; rfl) rfl hreq
  · intro res ct hfp hs hh hst hct hmedia hreq
    rw [load_remote_eq env ms mr d req hfp hs]
    exact loadRemote_guard_stop env ms req res ct ModuleType.Json false hh hst hct
      (by rw [hmedia]; rfl) rfl hreq

/-- Witness for C1: a plain (non-JSON-typed) import of a local `.json`
file and of a remote module served as `application/json` both fail with
the JSON-attribute error, with no record constructed. -/
theorem json_module_guard_witness :
    load (envFs "{}" "out") ⟨"file", "", "/a.json"⟩ none false .None
        = (.error .jsonAttribute, [.guardCheck])
  ∧ load (envHttp ⟨true, some "application/json", .ok "{}"⟩ "out")
        ⟨"https", "example.com", "/mod"⟩ none false .None
        = (.error .jsonAttribute,
           [.httpGet "https://example.com/mod", .guardCheck]) :=
  ⟨(json_module_guard (envFs "{}" "out") ⟨"file", "", "/a.json"⟩ none false .None).2.1
      "/a.json" (by decide) (by decide) (by decide),
   (json_module_guard (envHttp ⟨true, some "application/json", .ok "{}"⟩ "out")
      ⟨"https", "example.com", "/mod"⟩ none false .None).2.2
      ⟨true, some "application/json", .ok "{}"⟩ "application/json"
      (by decide) (by decide) rfl rfl rfl (by decide) (by decide)⟩

/-- C7: on the http/https origin, a GET response with a non-success status
fails the load with an error naming the module identity, and a response
with no `content-type` header fails it with the no-content-type error — in
both cases no module record is produced. -/
theorem http_status_and_header_errors (env : Env) (ms : ModuleSpecifier)
    (mr : Option ModuleSpecifier) (d : Bool) (req : RequestedModuleType)
    (res : HttpResponse) (hfp : ms.toFilePath = none)
    (hs : ms.scheme = "http" ∨ ms.scheme = "https")
    (hh : env.http ms.urlStr = .ok res) :
    (res.statusSuccess = false →
        load env ms mr d req = (.error (.fetchFailed ms.urlStr), [.httpGet ms.urlStr]))
  ∧ (res.statusSuccess = true → res.contentType = none →
        load env ms mr d req = (.error .noContentType, [.httpGet ms.urlStr])) := by
  constructor
  · intro hst
    rw [load_remote_eq env ms mr d req hfp hs]
    exact loadRemote_bad_status env ms req res hh hst
  · intro hst hct
    rw [load_remote_eq env ms mr d req hfp hs]
    exact loadRemote_no_ct env ms req res hh hst hct

/-- Witness for C7: a 404-style response fails with a fetch error naming
`https://example.com/mod`, and a success response with no `content-type`
header fails with the no-content-type error. -/
theorem http_status_and_header_errors_witness :
    load (envHttp ⟨false, none, .ok ""⟩ "out") ⟨"https", "example.com", "/mod"⟩
        none false .None
      = (.error (.fetchFailed "https://example.com/mod"),
         [.httpGet "https://example.com/mod"])
  ∧ load (envHttp ⟨true, none, .ok ""⟩ "out") ⟨"https", "example.com", "/mod"⟩
        none false .None
      = (.error .noContentType, [.httpGet "https://example.com/mod"]) :=
  ⟨(http_status_and_header_errors (envHttp ⟨false, none, .ok ""⟩ "out")
      ⟨"https", "example.com", "/mod"⟩ none false .None ⟨false, none, .ok ""⟩
      (by decide) (by decide) rfl).1 rfl,
   (http_status_and_header_errors (envHttp ⟨true, none, .ok ""⟩ "out")
      ⟨"https", "example.com", "/mod"⟩ none false .None ⟨true, none, .ok ""⟩
      (by decide) (by decide) rfl).2 rfl rfl⟩

/-- C6: for every module identity that does not denote a local filesystem
path and whose scheme is neither `http` nor `https`, `load` fails with the
unsupported-module-specifier error naming the identity, and performs no
filesystem or network I/O (the event trace is empty). -/
theorem load_unsupported_scheme (env : Env) (ms : ModuleSpecifier)
    (mr : Option ModuleSpecifier) (d : Bool) (req : RequestedModuleType)
    (hfp : ms.toFilePath = none) (h1 : ms.scheme ≠ "http") (h2 : ms.scheme ≠ "https") :
    load env ms mr d req = (.error (.unsupportedSpecifier ms.urlStr), []) := by
  simp [load, hfp, h1, h2]

/-- Witness for C6: loading `ftp://example.com/x` fails as unsupported with
no I/O, in an environment whose filesystem and network would answer. -/
theorem load_unsupported_scheme_witness :
    load (envFs "x" "y") ⟨"ftp", "example.com", "/x"⟩ none false .None
      = (.error (.unsupportedSpecifier "ftp://example.com/x"), []) :=
  load_unsupported_scheme (envFs "x" "y") ⟨"ftp", "example.com", "/x"⟩ none false .None
    (by decide) (by decide) (by decide)

/-- C9: for a local path classified as JSON with a non-JSON requested
type, `load` returns the JSON-attribute error with no filesystem read in
the trace — uniformly in the environment, so the same error results even
when the file is missing or unreadable. -/
theorem load_local_json_no_read (env : Env) (ms : ModuleSpecifier)
    (mr : Option ModuleSpecifier) (d : Bool) (req : RequestedModuleType) (p : String)
    (hfp : ms.toFilePath = some p) (hj : MediaType.fromPath p = .Json)
    (hreq : req ≠ .Json) :
    load env ms mr d req = (.error .jsonAttribute, [.guardCheck]) ∧
      ∀ q, Event.fsRead q ∉ (load env ms mr d req).2 := by
  have h : load env ms mr d req = (.error .jsonAttribute, [.guardCheck]) := by
    simp [load, hfp, loadLocal, hj, classifyLocal, hreq]
  exact ⟨h, by simp [h]⟩

/-- Witness for C9: requesting `/missing.json` without the JSON attribute
in an environment whose filesystem has no files still yields the
JSON-attribute error, not an I/O error, and reads nothing. -/
theorem load_local_json_no_read_witness :
    load envEmpty ⟨"file", "", "/missing.json"⟩ none false .None
        = (.error .jsonAttribute, [.guardCheck]) ∧
      ∀ q, Event.fsRead q ∉ (load envEmpty ⟨"file", "", "/missing.json"⟩ none false .None).2 :=
  load_local_json_no_read envEmpty ⟨"file", "", "/missing.json"⟩ none false .None
    "/missing.json" (by decide) (by decide) (by decide)

/-- A path whose extension is outside the classification table reaches the
tables' default arm. -/
theorem classifyLocal_fromPath_none (p : String)
    (h : ∀ e, extOf p = some e → e ∉ knownExtensions) :
    classifyLocal (MediaType.fromPath p) = none := by
  unfold MediaType.fromPath
  cases hext : extOf p with
  | none => rfl
  | some e =>
    have h1 : e ≠ "ts" := fun he => h e hext (by rw [he]; decide)
    have h2 : e ≠ "mts" := fun he => h e hext (by rw [he]; decide)
    have h3 : e ≠ "cts" := fun he => h e hext (by rw [he]; decide)
    have h4 : e ≠ "tsx" := fun he => h e hext (by rw [he]; decide)
    have h5 : e ≠ "js" := fun he => h e hext (by rw [he]; decide)
    have h6 : e ≠ "jsx" := fun he => h e hext (by rw [he]; decide)
    have h7 : e ≠ "mjs" := fun he => h e hext (by rw [he]; decide)
    have h8 : e ≠ "cjs" := fun he => h e hext (by rw [he]; decide)
    have h9 : e ≠ "json" := fun he => h e hext (by rw [he]; decide)
    simp only [h1, h2, h3, h4, h5, h6, h7, h8, h9, if_false]
    by_cases hw : e = "wasm"
    · simp [hw, classifyLocal]
    · by_cases hm : e = "map"
      · simp [hw, hm, classifyLocal]
      · simp [hw, hm, classifyLocal]

/-- A content-type whose essence is outside the recognized set classifies
as `Unknown`. -/
theorem fromContentType_unknown (m : ModuleSpecifier) (ct : String)
    (h : ctEssence ct ∉ knownContentTypes) :
    MediaType.fromContentType m ct = .Unknown := by
  have hts : ctEssence ct ∉ tsContentTypes := fun hin =>
    h (List.mem_append_left _ (List.mem_append_left _ hin))
  have hjs : ctEssence ct ∉ jsContentTypes := fun hin =>
    h (List.mem_append_left _ (List.mem_append_right _ hin))
  have h1 : ctEssence ct ≠ "text/jsx" := fun he => h (by rw [he]; decide)
  have h2 : ctEssence ct ≠ "text/tsx" := fun he => h (by rw [he]; decide)
  have h3 : ctEssence ct ≠ "application/json" := fun he => h (by rw [he]; decide)
  have h4 : ctEssence ct ≠ "text/json" := fun he => h (by rw [he]; decide)
  have h5 : ctEssence ct ≠ "application/wasm" := fun he => h (by rw [he]; decide)
  have h6 : ctEssence ct ≠ "text/plain" := fun he => h (by rw [he]; decide)
  have h7 : ctEssence ct ≠ "application/octet-stream" := fun he => h (by rw [he]; decide)
  simp only [MediaType.fromContentType]
  rw [if_neg hts, if_neg hjs, if_neg h1, if_neg h2,
      if_neg (not_or.mpr ⟨h3, h4⟩), if_neg h5,
      if_neg (fun hc => hc.1.elim h6 h7)]

/-- C3: classification is total with no silent default — a local path whose
extension is outside the classification table fails with the
unknown-extension error, and a network response whose content-type essence
is outside the recognized set fails with the unknown-content-type error. -/
theorem unknown_media_fails (env : Env) (ms : ModuleSpecifier)
    (mr : Option ModuleSpecifier) (d : Bool) (req : RequestedModuleType) :
    (∀ p, ms.toFilePath = some p →
        (∀ e, extOf p = some e → e ∉ knownExtensions) →
        load env ms mr d req = (.error (.unknownExtension (extOf p)), []))
  ∧ (∀ res ct, ms.toFilePath = none → (ms.scheme = "http" ∨ ms.scheme = "https") →
        env.http ms.urlStr = .ok res → res.statusSuccess = true →
        res.contentType = some ct → ctEssence ct ∉ knownContentTypes →
        load env ms mr d req
          = (.error (.unknownContentType ct), [.httpGet ms.urlStr])) := by
  constructor
  · intro p hfp hunk
    rw [load_local_eq env ms mr d req p hfp]
    exact loadLocal_classify_none env ms p req (classifyLocal_fromPath_none p hunk)
  · intro res ct hfp hs hh hst hct hunk
    rw [load_remote_eq env ms mr d req hfp hs]
    exact loadRemote_classify_none env ms req res ct hh hst hct
      (by rw [fromContentType_unknown ms ct hunk]; rfl)

/-- Witness for C3: the unknown extension `.xyz` and the unknown
content-type `application/x-foo` both fail explicitly. -/
theorem unknown_media_fails_witness :
    load (envFs "x" "out") ⟨"file", "", "/a.xyz"⟩ none false .None
        = (.error (.unknownExtension (extOf "/a.xyz")), [])
  ∧ load (envHttp ⟨true, some "application/x-foo", .ok "x"⟩ "out")
        ⟨"https", "example.com", "/mod"⟩ none false .None
        = (.error (.unknownContentType "application/x-foo"),
           [.httpGet "https://example.com/mod"]) :=
  ⟨(unknown_media_fails (envFs "x" "out") ⟨"file", "", "/a.xyz"⟩ none false .None).1
      "/a.xyz" (by decide)
      (fun e he => by
        rw [show extOf "/a.xyz" = some "xyz" from by decide] at he
        injection he with he2
        subst he2
        decide),
   (unknown_media_fails (envHttp ⟨true, some "application/x-foo", .ok "x"⟩ "out")
      ⟨"https", "example.com", "/mod"⟩ none false .None).2
      ⟨true, some "application/x-foo", .ok "x"⟩ "application/x-foo"
      (by decide) (by decide) rfl rfl rfl (by decide)⟩

/-- C4: in every successful load, when the classified media kind requires
transpilation the returned source text is exactly the transpiler's output
on the fetched text, and when it does not, the returned source text is
exactly the fetched text. -/
theorem transpile_gate_source_text (env : Env) (ms : ModuleSpecifier)
    (mr : Option ModuleSpecifier) (d : Bool) (req : RequestedModuleType) :
    (∀ p code r tr, ms.toFilePath = some p → env.fs p = .ok code →
        load env ms mr d req = (.ok r, tr) →
        (requiresTranspile (MediaType.fromPath p) = true →
            env.transpile ms.urlStr (MediaType.fromPath p) code = .ok r.code)
        ∧ (requiresTranspile (MediaType.fromPath p) = false → r.code = code))
  ∧ (∀ res ct code r tr, ms.toFilePath = none → env.http ms.urlStr = .ok res →
        res.contentType = some ct → res.body = .ok code →
        load env ms mr d req = (.ok r, tr) →
        (requiresTranspile (MediaType.fromContentType ms ct) = true →
            env.transpile ms.urlStr (MediaType.fromContentType ms ct) code = .ok r.code)
        ∧ (requiresTranspile (MediaType.fromContentType ms ct) = false → r.code = code)) := by
  constructor
  · intro p code r tr hfp hfs h
    rw [load_local_eq env ms mr d req p hfp] at h
    have h1 : (loadLocal env ms p req).1 = .ok r := by rw [h]
    obtain ⟨mt, st, code2, hcl, hg, hfs2, htg⟩ := loadLocal_fst_ok_inv env ms p req r h1
    rw [hfs] at hfs2
    injection hfs2 with hcode
    subst hcode
    have hrt : requiresTranspile (MediaType.fromPath p) = st := by
      unfold requiresTranspile
      rw [hcl]
    cases st with
    | true =>
      refine ⟨fun _ => ?_, fun hf => ?_⟩
      · exact transpileGate_fst_ok_code_true env ms mt (MediaType.fromPath p) code r htg
      · rw [hrt] at hf
        exact absurd hf (by simp)
    | false =>
      refine ⟨fun ht => ?_, fun _ => ?_⟩
      · rw [hrt] at ht
        exact absurd ht (by simp)
      · exact transpileGate_fst_ok_code_false env ms mt (MediaType.fromPath p) code r htg
  · intro res ct code r tr hfp hh hct hb h
    by_cases hs : ms.scheme = "http" ∨ ms.scheme = "https"
    · rw [load_remote_eq env ms mr d req hfp hs] at h
      have h1 : (loadRemote env ms req).1 = .ok r := by rw [h]
      obtain ⟨res2, ct2, mt, st, code2, hh2, hst2, hct2, hcl, hg, hb2, htg⟩ :=
        loadRemote_fst_ok_inv env ms req r h1
      rw [hh] at hh2
      injection hh2 with hres
      subst hres
      rw [hct] at hct2
      injection hct2 with hcteq
      subst hcteq
      rw [hb] at hb2
      injection hb2 with hcode
      subst hcode
      have hrt : requiresTranspile (MediaType.fromContentType ms ct) = st := by
        unfold requiresTranspile
        rw [classify_tables_agree, hcl]
      cases st with
      | true =>
        refine ⟨fun _ => ?_, fun hf => ?_⟩
        · exact transpileGate_fst_ok_code_true env ms mt (MediaType.fromContentType ms ct) code r htg
        · rw [hrt] at hf
          exact absurd hf (by simp)
      | false =>
        refine ⟨fun ht => ?_, fun _ => ?_⟩
        · rw [hrt] at ht
          exact absurd ht (by simp)
        · exact transpileGate_fst_ok_code_false env ms mt (MediaType.fromContentType ms ct) code r htg
    · rw [load_other_eq env ms mr d req hfp hs] at h
      simp at h

/-- Witness for C4: loading `file:///a.ts` through a transpiler that maps
the file's TypeScript text to `const x = 1;` yields exactly that
transpiler output as the record's source text; loading `file:///a.js`
yields the file text verbatim. -/
theorem transpile_gate_source_text_witness :
    (envFs "const x: number = 1;" "const x = 1;").transpile "file:///a.ts"
        (MediaType.fromPath "/a.ts") "const x: number = 1;"
      = .ok (ModuleSource.mk .JavaScript "const x = 1;" "file:///a.ts").code
  ∧ (ModuleSource.mk .JavaScript "var y" "file:///a.js").code = "var y" :=
  ⟨((transpile_gate_source_text (envFs "const x: number = 1;" "const x = 1;")
      ⟨"file", "", "/a.ts"⟩ none false .None).1 "/a.ts" "const x: number = 1;"
      (ModuleSource.mk .JavaScript "const x = 1;" "file:///a.ts")
      [.guardCheck, .fsRead "/a.ts", .transpileRun] (by decide) rfl
      rfl).1 (by decide),
   ((transpile_gate_source_text (envFs "var y" "out") ⟨"file", "", "/a.js"⟩
      none false .None).1 "/a.js" "var y"
      (ModuleSource.mk .JavaScript "var y" "file:///a.js")
      [.guardCheck, .fsRead "/a.js"] (by decide) rfl rfl).2 (by decide)⟩

/-- C5: the classification table — both origins share one table; `.js`,
`.mjs`, `.cjs` are not transpiled; `.jsx`, `.ts`, `.mts`, `.cts`, `.tsx`
(declaration variants included, since they share the `ts`/`mts`/`cts`
extensions) are transpiled; `.json` is never transpiled; and the module
type a classified kind induces is JSON exactly for the JSON media kind. -/
theorem classification_table :
    (∀ m, classifyLocal m = classifyRemote m)
  ∧ (∀ p e, extOf p = some e → (e = "js" ∨ e = "mjs" ∨ e = "cjs") →
        classifyLocal (MediaType.fromPath p) = some (.JavaScript, false))
  ∧ (∀ p e, extOf p = some e →
        (e = "jsx" ∨ e = "ts" ∨ e = "mts" ∨ e = "cts" ∨ e = "tsx") →
        classifyLocal (MediaType.fromPath p) = some (.JavaScript, true))
  ∧ (∀ p e, extOf p = some e → e = "json" →
        classifyLocal (MediaType.fromPath p) = some (.Json, false))
  ∧ (∀ m mt b, classifyLocal m = some (mt, b) →
        (mt = ModuleType.Json ↔ m = MediaType.Json)) := by
  refine ⟨fun m => by cases m <;> rfl, ?_, ?_, ?_, ?_⟩
  · intro p e hext he
    rcases he with he | he | he <;> subst he <;> simp [MediaType.fromPath, hext] <;> rfl
  · intro p e hext he
    rcases he with he | he | he | he | he <;> subst he <;>
      simp only [MediaType.fromPath, hext] <;> simp <;>
      first
        | rfl
        | (cases hd : strEndsWith p ".d.ts" <;> simp [hd] <;> rfl)
        | (cases hd : strEndsWith p ".d.mts" <;> simp [hd] <;> rfl)
        | (cases hd : strEndsWith p ".d.cts" <;> simp [hd] <;> rfl)
  · intro p e hext he
    subst he
    simp [MediaType.fromPath, hext]
    rfl
  · intro m mt b h
    cases m <;> simp_all [classifyLocal] <;> rcases h with ⟨rfl, -⟩ <;> simp

/-- Witness for C5: the table evaluated at `.js`, `.ts`, `.d.ts` and
`.json` paths. -/
theorem classification_table_witness :
    classifyLocal (MediaType.fromPath "/x.js") = some (.JavaScript, false)
  ∧ classifyLocal (MediaType.fromPath "/x.ts") = some (.JavaScript, true)
  ∧ classifyLocal (MediaType.fromPath "/x.d.ts") = some (.JavaScript, true)
  ∧ classifyLocal (MediaType.fromPath "/x.json") = some (.Json, false)
  ∧ (ModuleType.Json = ModuleType.Json ↔ MediaType.Json = MediaType.Json) :=
  ⟨classification_table.2.1 "/x.js" "js" (by decide) (Or.inl rfl),
   classification_table.2.2.1 "/x.ts" "ts" (by decide) (Or.inr (Or.inl rfl)),
   classification_table.2.2.1 "/x.d.ts" "ts" (by decide) (Or.inr (Or.inl rfl)),
   classification_table.2.2.2.1 "/x.json" "json" (by decide) rfl,
   classification_table.2.2.2.2 MediaType.Json ModuleType.Json false (by decide)⟩

/-- Every `load` trace has one of eight shapes, fixed by the branch
structure of the pipeline. -/
theorem load_trace_shapes (env : Env) (ms : ModuleSpecifier)
    (mr : Option ModuleSpecifier) (d : Bool) (req : RequestedModuleType) :
    (load env ms mr d req).2 = [] ∨
    (load env ms mr d req).2 = [.guardCheck] ∨
    (∃ p, (load env ms mr d req).2 = [.guardCheck, .fsRead p]) ∨
    (∃ p, (load env ms mr d req).2 = [.guardCheck, .fsRead p, .transpileRun]) ∨
    (load env ms mr d req).2 = [.httpGet ms.urlStr] ∨
    (load env ms mr d req).2 = [.httpGet ms.urlStr, .guardCheck] ∨
    (load env ms mr d req).2
      = [.httpGet ms.urlStr, .guardCheck, .httpBodyRead ms.urlStr] ∨
    (load env ms mr d req).2
      = [.httpGet ms.urlStr, .guardCheck, .httpBodyRead ms.urlStr, .transpileRun] := by
  cases hfp : ms.toFilePath with
  | some p =>
    rw [load_local_eq env ms mr d req p hfp]
    cases hcl : classifyLocal (MediaType.fromPath p) with
    | none =>
      rw [loadLocal_classify_none env ms p req hcl]
      exact Or.inl rfl
    | some ts =>
      obtain ⟨mt, st⟩ := ts
      by_cases hg : mt = ModuleType.Json ∧ req ≠ RequestedModuleType.Json
      · rw [loadLocal_guard_stop env ms p req mt st hcl hg.1 hg.2]
        exact Or.inr (Or.inl rfl)
      · cases hfs : env.fs p with
        | error e =>
          rw [loadLocal_fs_error env ms p req mt st e hcl hg hfs]
          exact Or.inr (Or.inr (Or.inl ⟨p, rfl⟩))
        | ok code =>
          rw [loadLocal_fs_ok env ms p req mt st code hcl hg hfs]
          cases st with
          | false =>
            rw [transpileGate_false]
            exact Or.inr (Or.inr (Or.inl ⟨p, rfl⟩))
          | true =>
            cases htr : env.transpile ms.urlStr (MediaType.fromPath p) code with
            | error e =>
              rw [transpileGate_true_error env ms mt (MediaType.fromPath p) code e htr]
              exact Or.inr (Or.inr (Or.inr (Or.inl ⟨p, rfl⟩)))
            | ok out =>
              rw [transpileGate_true_ok env ms mt (MediaType.fromPath p) code out htr]
              exact Or.inr (Or.inr (Or.inr (Or.inl ⟨p, rfl⟩)))
  | none =>
    by_cases hs : ms.scheme = "http" ∨ ms.scheme = "https"
    · rw [load_remote_eq env ms mr d req hfp hs]
      cases hh : env.http ms.urlStr with
      | error e =>
        rw [loadRemote_http_error env ms req e hh]
        exact Or.inr (Or.inr (Or.inr (Or.inr (Or.inl rfl))))
      | ok res =>
        cases hst : res.statusSuccess with
        | false =>
          rw [loadRemote_bad_status env ms req res hh hst]
          exact Or.inr (Or.inr (Or.inr (Or.inr (Or.inl rfl))))
        | true =>
          cases hct : res.contentType with
          | none =>
            rw [loadRemote_no_ct env ms req res hh hst hct]
            exact Or.inr (Or.inr (Or.inr (Or.inr (Or.inl rfl))))
          | some ct =>
            cases hcl : classifyRemote (MediaType.fromContentType ms ct) with
            | none =>
              rw [loadRemote_classify_none env ms req res ct hh hst hct hcl]
              exact Or.inr (Or.inr (Or.inr (Or.inr (Or.inl rfl))))
            | some ts =>
              obtain ⟨mt, st⟩ := ts
              by_cases hg : mt = ModuleType.Json ∧ req ≠ RequestedModuleType.Json
              · rw [loadRemote_guard_stop env ms req res ct mt st hh hst hct hcl hg.1 hg.2]
                exact Or.inr (Or.inr (Or.inr (Or.inr (Or.inr (Or.inl rfl)))))
              · cases hb : res.body with
                | error e =>
                  rw [loadRemote_body_error env ms req res ct mt st e hh hst hct hcl hg hb]
                  exact Or.inr (Or.inr (Or.inr (Or.inr (Or.inr (Or.inr (Or.inl rfl))))))
                | ok code =>
                  rw [loadRemote_body_ok env ms req res ct mt st code hh hst hct hcl hg hb]
                  cases st with
                  | false =>
                    rw [transpileGate_false]
                    exact Or.inr (Or.inr (Or.inr (Or.inr (Or.inr (Or.inr (Or.inl rfl))))))
                  | true =>
                    cases htr : env.transpile ms.urlStr (MediaType.fromContentType ms ct) code with
                    | error e =>
                      rw [transpileGate_true_error env ms mt
                        (MediaType.fromContentType ms ct) code e htr]
                      exact Or.inr (Or.inr (Or.inr (Or.inr (Or.inr (Or.inr (Or.inr rfl))))))
                    | ok out =>
                      rw [transpileGate_true_ok env ms mt
                        (MediaType.fromContentType ms ct) code out htr]
                      exact Or.inr (Or.inr (Or.inr (Or.inr (Or.inr (Or.inr (Or.inr rfl))))))
    · rw [load_other_eq env ms mr d req hfp hs]
      exact Or.inl rfl

/-- C2 counterexample: formalizing the claim — in every load the guard
check comes after the fetch of the module's content, before any transpile
step, and before a record is constructed — over the event trace, it is
false: on a local load of `file:///a.json` with a JSON request, the trace
is `[guardCheck, fsRead "/a.json"]`, so the guard precedes the content
fetch. -/
theorem guard_after_fetch_counterexample :
    ¬ ∀ (env : Env) (ms : ModuleSpecifier) (mr : Option ModuleSpecifier) (d : Bool)
        (req : RequestedModuleType),
        ((load env ms mr d req).2.Pairwise
            fun a b => ¬(a = Event.guardCheck ∧ b.isContentFetch = true))
        ∧ ((load env ms mr d req).2.Pairwise
            fun a b => ¬(a = Event.transpileRun ∧ b = Event.guardCheck))
        ∧ (∀ r, (load env ms mr d req).1 = .ok r →
            Event.guardCheck ∈ (load env ms mr d req).2) := by
  intro hall
  have h2 := (hall (envFs "{}" "out") ⟨"file", "", "/a.json"⟩ none false .Json).1
  rw [show (load (envFs "{}" "out") ⟨"file", "", "/a.json"⟩ none false .Json).2
        = [.guardCheck, .fsRead "/a.json"] from rfl] at h2
  have h3 := (List.pairwise_cons.mp h2).1 (Event.fsRead "/a.json") (by simp)
  exact h3 ⟨rfl, rfl⟩

/-- C2 (amended): in every load the JSON-attribute guard check is
performed before the module's content is fetched (before the file read on
the filesystem origin and before the body read on the network origin) —
not after it — while, as the claim states, it comes after the GET request
on the network origin, before any transpile step, and before any record
is constructed. -/
theorem guard_check_ordering (env : Env) (ms : ModuleSpecifier)
    (mr : Option ModuleSpecifier) (d : Bool) (req : RequestedModuleType) :
    ((load env ms mr d req).2.Pairwise
        fun a b => ¬(a.isContentFetch = true ∧ b = Event.guardCheck))
  ∧ ((load env ms mr d req).2.Pairwise
        fun a b => ¬(a = Event.guardCheck ∧ b.isHttpGet = true))
  ∧ ((load env ms mr d req).2.Pairwise
        fun a b => ¬(a = Event.transpileRun ∧ b = Event.guardCheck))
  ∧ (∀ r, (load env ms mr d req).1 = .ok r →
        Event.guardCheck ∈ (load env ms mr d req).2) := by
  refine ⟨?_, ?_, ?_, ?_⟩
  · rcases load_trace_shapes env ms mr d req with h | h | ⟨p, h⟩ | ⟨p, h⟩ | h | h | h | h <;>
      rw [h] <;> simp [Event.isContentFetch]
  · rcases load_trace_shapes env ms mr d req with h | h | ⟨p, h⟩ | ⟨p, h⟩ | h | h | h | h <;>
      rw [h] <;> simp [Event.isHttpGet]
  · rcases load_trace_shapes env ms mr d req with h | h | ⟨p, h⟩ | ⟨p, h⟩ | h | h | h | h <;>
      rw [h] <;> simp
  · intro r h
    cases hfp : ms.toFilePath with
    | some p =>
      rw [load_local_eq env ms mr d req p hfp] at h ⊢
      obtain ⟨mt, st, code, hcl, hg, hfs, htg⟩ := loadLocal_fst_ok_inv env ms p req r h
      rw [loadLocal_fs_ok env ms p req mt st code hcl hg hfs]
      simp
    | none =>
      by_cases hs : ms.scheme = "http" ∨ ms.scheme = "https"
      · rw [load_remote_eq env ms mr d req hfp hs] at h ⊢
        obtain ⟨res, ct, mt, st, code, hh, hst, hct, hcl, hg, hb, htg⟩ :=
          loadRemote_fst_ok_inv env ms req r h
        rw [loadRemote_body_ok env ms req res ct mt st code hh hst hct hcl hg hb]
        simp
      · rw [load_other_eq env ms mr d req hfp hs] at h
        simp at h

/-- Witness for the amended C2: on a successful local JSON load the guard
event is in the trace. -/
theorem guard_check_ordering_witness :
    Event.guardCheck
      ∈ (load (envFs "{}" "out") ⟨"file", "", "/b.json"⟩ none false .Json).2 :=
  (guard_check_ordering (envFs "{}" "out") ⟨"file", "", "/b.json"⟩ none false .Json).2.2.2
    (ModuleSource.mk .Json "{}" "file:///b.json") rfl

/-- C8: `resolve` applies standard URI-join semantics — an absolute
specifier resolves to itself (as parsed and normalized); a root- or
dot-relative specifier is joined against the referrer's base; and
resolving `./b.ts` against `file:///dir/a.ts` yields `file:///dir/b.ts`. -/
theorem resolve_uri_join (k : ResolutionKind) :
    (∀ s r u, parseUrl s = some u → resolve s r k = .ok u)
  ∧ (∀ s r base, parseUrl s = none →
        (strStartsWith s "/" ∨ strStartsWith s "./" ∨ strStartsWith s "../") →
        parseUrl r = some base → resolve s r k = .ok (joinUrl base s))
  ∧ resolve "./b.ts" "file:///dir/a.ts" k = .ok ⟨"file", "", "/dir/b.ts"⟩
  ∧ (⟨"file", "", "/dir/b.ts"⟩ : ModuleSpecifier).urlStr = "file:///dir/b.ts" := by
  refine ⟨?_, ?_, ?_, rfl⟩
  · intro s r u hp
    simp [resolve, resolveImport, hp]
  · intro s r base hp hpre hb
    unfold resolve resolveImport
    rw [hp]
    rw [if_pos hpre]
    rw [hb]
  · rfl

/-- Witness for C8: an absolute `https` specifier resolves to itself, and
a `../`-relative specifier joins and normalizes against the referrer. -/
theorem resolve_uri_join_witness :
    resolve "https://x.com/a" "file:///q.ts" .Import = .ok ⟨"https", "x.com", "/a"⟩
  ∧ resolve "../c.ts" "file:///d/e/a.ts" .Import = .ok ⟨"file", "", "/d/c.ts"⟩ :=
  ⟨(resolve_uri_join .Import).1 "https://x.com/a" "file:///q.ts"
      ⟨"https", "x.com", "/a"⟩ (by decide),
   (resolve_uri_join .Import).2.1 "../c.ts" "file:///d/e/a.ts"
      ⟨"file", "", "/d/e/a.ts"⟩ (by decide) (by decide) (by decide)⟩

/-- C10: `resolve` returns the same result regardless of the
`ResolutionKind` argument, and `load` (under the same collaborator
environment) returns the same outcome regardless of the `maybe_referrer`
and `is_dyn_import` arguments. -/
theorem resolve_load_parameter_independence :
    (∀ s r k k2, resolve s r k = resolve s r k2) ∧
      (∀ env ms mr mr2 d d2 req,
        load env ms mr d req = load env ms mr2 d2 req) :=
  ⟨fun _ _ _ _ => rfl, fun _ _ _ _ _ _ _ => rfl⟩

end TsLoader
